import Mathlib

/-!
Verification of the dualwavetech attachment-processing pipeline.

Shallow embedding of the core logic of:
  - src/adapters/detector/bank_statement_detector.py
  - src/adapters/email_processor.py
  - src/adapters/utils/zip_handler.py
  - src/adapters/utils/heron_service.py

External effects (HTTP calls, the pdfplumber/OCR text extractors, the
regular-expression engine, the LLM extractor, the local filesystem and
clock) are modelled as oracle parameters; the decision logic itself is
translated line by line from the Python source.

Python string primitives are embedded as character-list operations so
that every definition evaluates inside the kernel:
  `x in s`       -> strContains
  `s.lower()`    -> pyLower         `s.upper()`  -> pyUpper
  `s.strip()`    -> pyStrip         `len(s)`     -> pyLen
  `s[:n]`        -> pyTake          `str(n)`     -> natToDec
  `s.endswith`   -> pyEndsWith      `s.startswith` -> pyStartsWith
  `s.split(c)[0]`-> firstLineBy
-/

namespace DualWave

/-- Python `needle in hay` substring containment on strings. -/
def strContains (hay needle : String) : Bool :=
  decide (needle.data <:+: hay.data)

/-- Python `s.lower()` (ASCII case folding suffices for every string the
pipeline compares). -/
def pyLower (s : String) : String := ⟨s.data.map Char.toLower⟩

/-- Python `s.upper()`. -/
def pyUpper (s : String) : String := ⟨s.data.map Char.toUpper⟩

/-- Python `s.endswith(suff)`. -/
def pyEndsWith (s suff : String) : Bool := decide (suff.data <:+ s.data)

/-- Python `s.startswith(p)`. -/
def pyStartsWith (s p : String) : Bool := decide (p.data <+: s.data)

/-- Python `len(s)`. -/
def pyLen (s : String) : Nat := s.data.length

/-- Python `s[:n]`. -/
def pyTake (s : String) (n : Nat) : String := ⟨s.data.take n⟩

/-- Python `s.strip()`: remove leading and trailing whitespace. -/
def pyStrip (s : String) : String :=
  ⟨((s.data.dropWhile Char.isWhitespace).reverse.dropWhile Char.isWhitespace).reverse⟩

/-- Python `s.split(sep)[0]` for a one-character separator: the characters
before the first occurrence of the separator. -/
def firstLineBy (sep : Char) (s : String) : String :=
  ⟨s.data.takeWhile (fun c => c ≠ sep)⟩

/-- Little-endian decimal digits, by structural fuel recursion (so that it
reduces in the kernel); `decDigitsGo fuel n` is correct whenever `n < fuel`. -/
def decDigitsGo : Nat → Nat → List Nat
  | 0, _ => []
  | fuel + 1, n => if n = 0 then [] else (n % 10) :: decDigitsGo fuel (n / 10)

/-- Python `str(n)` for a natural number. -/
def natToDec (n : Nat) : String :=
  if n = 0 then "0"
  else ⟨((decDigitsGo (n + 1) n).map (fun d => Char.ofNat (48 + d))).reverse⟩

/-- Decimal decoding, used to show `natToDec` is injective. -/
def decodeDec (s : String) : Nat :=
  s.data.foldl (fun acc c => 10 * acc + (c.toNat - 48)) 0

theorem decDigitsGo_val (fuel : Nat) : ∀ n, n < fuel →
    (decDigitsGo fuel n).foldr (fun d acc => 10 * acc + d) 0 = n := by
  induction fuel with
  | zero => intro n h; omega
  | succ fuel ih =>
    intro n h
    by_cases h0 : n = 0
    · simp [decDigitsGo, h0]
    · have hdiv : n / 10 < fuel := by
        have h1 : n / 10 < n := Nat.div_lt_self (Nat.pos_of_ne_zero h0) (by omega)
        omega
      simp only [decDigitsGo, h0, if_false, List.foldr_cons, ih (n / 10) hdiv]
      omega

theorem decDigitsGo_lt10 (fuel : Nat) : ∀ n d, d ∈ decDigitsGo fuel n → d < 10 := by
  induction fuel with
  | zero => intro n d h; simp [decDigitsGo] at h
  | succ fuel ih =>
    intro n d h
    by_cases h0 : n = 0
    · simp [decDigitsGo, h0] at h
    · simp only [decDigitsGo, h0, if_false, List.mem_cons] at h
      rcases h with h | h
      · omega
      · exact ih _ _ h

theorem foldr_digit_char (l : List Nat) (h : ∀ d ∈ l, d < 10) :
    l.foldr (fun a acc => 10 * acc + ((Char.ofNat (48 + a)).toNat - 48)) 0 =
    l.foldr (fun a acc => 10 * acc + a) 0 := by
  have hchar : ∀ d, d < 10 → (Char.ofNat (48 + d)).toNat = 48 + d := by decide
  induction l with
  | nil => rfl
  | cons a l ih =>
    simp only [List.foldr_cons]
    rw [ih (fun d hd => h d (List.mem_cons_of_mem a hd)),
        hchar a (h a (List.mem_cons_self a l))]
    omega

theorem decodeDec_natToDec (n : Nat) : decodeDec (natToDec n) = n := by
  by_cases h0 : n = 0
  · subst h0; decide
  · simp only [natToDec, h0, if_false, decodeDec]
    rw [List.foldl_reverse, List.foldr_map]
    exact (foldr_digit_char _ (fun d hd => decDigitsGo_lt10 (n + 1) n d hd)).trans
      (decDigitsGo_val (n + 1) n (by omega))

theorem natToDec_inj {n m : Nat} (h : natToDec n = natToDec m) : n = m := by
  have := congrArg decodeDec h
  rwa [decodeDec_natToDec, decodeDec_natToDec] at this

/-- `BANK_KEYWORDS` from bank_statement_detector.py lines 22-27, verbatim. -/
def BANK_KEYWORDS : List String :=
  ["monthly statement", "account summary", "activity report", "statement period",
   "deposits and withdrawals", "balance forward", "checking account", "savings account",
   "Bank Statement", "Checking", "Checking Account", "Monthly Statement", "Account Summary",
   "Beginning Balance", "Ending Balance", "Account History"]

/-- `self._required_keywords = [kw.lower() for kw in required_keywords]`. -/
def requiredKeywords : List String := BANK_KEYWORDS.map pyLower

/-- Default `min_keyword_threshold` of `BankStatementDetector.__init__`. -/
def MIN_KEYWORD_THRESHOLD : Nat := 3

/-- The `found_count` loop of `_check_content_keywords`: how many entries of
the lowercased vocabulary occur as substrings of the extracted text. -/
def countKeywords (text : String) : Nat :=
  requiredKeywords.countP (fun kw => strContains text kw)

/-- `BankStatementDetector._check_content_keywords`, parameterized by the
result of `_get_file_text` (text extraction itself is external I/O).
Python `if not text_content` treats both `None` and `""` as falsy. -/
def check_content_keywords (textContent : Option String) (threshold : Nat) :
    Bool × Option String :=
  match textContent with
  | none => (false, none)
  | some t =>
    if t = "" then (false, none)
    else (decide (threshold ≤ countKeywords t), some t)

/-- `BankStatementDetector._check_filename`.  The final branch embeds
`re.search` of the alternation of bank, statement and account over the
lowered name, which holds exactly when one of the three literals occurs. -/
def check_filename (fileName : String) : Bool :=
  let nl := pyLower fileName
  if !(pyEndsWith nl ".pdf" || pyEndsWith nl ".doc" || pyEndsWith nl ".docx" || pyEndsWith nl ".csv") then
    false
  else if (["statement", "bank", "account_summary"] : List String).any (fun k => strContains nl k) then
    true
  else if (["bank", "statement", "account"] : List String).any (fun k => strContains nl k) then
    true
  else
    false

/-- A result of a regular-expression search: the whole match (group 0) plus
the captured groups. -/
structure ReMatch where
  g0 : String
  gs : List String
deriving DecidableEq

/-- The seven patterns of `extract_company_name`, verbatim (raw strings). -/
def companyPatterns : List String :=
  ["([A-Z][a-zA-Z]*(?:\\s+[A-Z][a-zA-Z]*)*\\s*(?:Bank|BANK|Trust|TRUST))",
   "([A-Z\\s,.-]+(BANK|TRUST))\\s*\\n",
   "([A-Z0-9\\s,-]+ (LLC|INC|CORP|CO|GROUP|COLLECTIVE))\\s*\\n",
   "([A-Z\\s,.-]+ (BANK|CREDIT UNION|TRUST|N\\.A\\.|FINANCIAL))\\n",
   "Account name:\\s*(.+)\\n",
   "([A-Z\\s,]+)\\s*(BANK|TRUST)\\n\\s*(\\d+\\s*[A-Z][a-z]+ Street)",
   "(\\w+)\\s*Bank"]

/-- Python `match.group(1)` (empty when absent, which cannot occur with
these patterns on a genuine match). -/
def group1 (r : ReMatch) : String := r.gs.headD ""

/-- The per-pattern capture-group selection of `extract_company_name`
(lines 275-296), branching on the pattern text exactly as the source does. -/
def selectCandidate (pattern : String) (r : ReMatch) : String :=
  if 2 ≤ r.gs.length ∧
      (["BANK|TRUST", "FINANCIAL"] : List String).any (fun term => strContains pattern term) then
    pyStrip (group1 r)
  else if r.gs.length = 3 ∧ strContains pattern "Street" then
    pyStrip (group1 r)
  else if pattern = "Account name:\\s*(.+)\\n" then
    firstLineBy '\n' (pyStrip (group1 r))
  else if 0 < r.gs.length then
    pyStrip (group1 r)
  else
    pyStrip r.g0

/-- Final cleaning (line 299): take the first line, strip. -/
def cleanCandidate (s : String) : String :=
  pyStrip (firstLineBy '\n' s)

/-- Acceptance guard (line 301): length above 3, and neither "STATEMENT"
nor "BOX" occurs in the upper-cased candidate. -/
def candidateOk (s : String) : Bool :=
  decide (3 < pyLen s) && !(strContains (pyUpper s) "STATEMENT") && !(strContains (pyUpper s) "BOX")

/-- The pattern loop of `extract_company_name`, with the regex engine as an
oracle `m pattern searchText`. -/
def extractNameGo (m : String → String → Option ReMatch) (searchText : String) :
    List String → String
  | [] => "UNKNOWN_BANK_DEFAULT"
  | p :: rest =>
    match m p searchText with
    | none => extractNameGo m searchText rest
    | some r =>
      let bankName := cleanCandidate (selectCandidate p r)
      if candidateOk bankName then bankName
      else extractNameGo m searchText rest

/-- `BankStatementDetector.extract_company_name` (lines 236-307). -/
def extract_company_name (m : String → String → Option ReMatch) (text : String) : String :=
  if text = "" then "UNKNOWN_BANK_DEFAULT"
  else extractNameGo m (pyTake text 1000) companyPatterns

/-- `BankStatementDetector.detect` (lines 213-234), parameterized by the
regex oracle and by the extracted text (`_get_file_text` output). -/
def detect (m : String → String → Option ReMatch) (textContent : Option String)
    (fileName : String) (threshold : Nat) : Bool × String :=
  let c := check_content_keywords textContent threshold
  let isMatchFilename := check_filename fileName
  let bankName :=
    match c.2 with
    | some t => if t = "" then "UNKNOWN_COMPANY" else extract_company_name m t
    | none => "UNKNOWN_COMPANY"
  if c.1 then (true, bankName)
  else if isMatchFilename then (true, bankName)
  else (false, bankName)

/-- Python `p.rfind(c)`: index of the last occurrence, `-1` when absent. -/
def pyRfind (l : List Char) (c : Char) : Int :=
  l.enum.foldl (fun acc q => if q.2 = c then (q.1 : Int) else acc) (-1)

/-- `os.path.splitext`: split at the last dot, provided that dot lies after
the last path separator and the basename does not consist solely of leading
dots up to it (so ".DS_Store" has no extension). -/
def splitext (p : String) : String × String :=
  let l := p.data
  let sepIdx := pyRfind l '/'
  let dotIdx := pyRfind l '.'
  if sepIdx < dotIdx ∧
      l.enum.any (fun q => decide (sepIdx < (q.1 : Int)) && decide ((q.1 : Int) < dotIdx) && decide (q.2 ≠ '.')) then
    (⟨l.take dotIdx.toNat⟩, ⟨l.drop dotIdx.toNat⟩)
  else (p, "")

/-- `os.path.basename`: the component after the last path separator. -/
def basename (p : String) : String :=
  ⟨p.data.drop (pyRfind p.data '/' + 1).toNat⟩

/-- One row of the JSON ledger (`log_attachment`, email_processor.py 71-84). -/
structure LedgerEntry where
  timestamp : String
  message_id : String
  file_name : String
  hash : String
  outcome : String
  error : Option String
deriving DecidableEq

/-- `is_duplicate` (email_processor.py 42-45): does any ledger entry carry
this hash?  NOTE: defined in the source but never called by any code path. -/
def is_duplicate (ledger : List LedgerEntry) (fileHash : String) : Bool :=
  ledger.any (fun e => e.hash = fileHash)

/-- `log_attachment` (email_processor.py 71-84): append one entry. -/
def log_attachment (ledger : List LedgerEntry) (now messageId fileName fileHash outcome : String)
    (error : Option String) : List LedgerEntry :=
  ledger ++ [⟨now, messageId, fileName, fileHash, outcome, error⟩]

/-- The suffixed candidate of `get_unique_filename`: base ++ "(" ++ counter
++ ")" ++ extension. -/
def mkSuffixed (base ext : String) (c : Nat) : String :=
  base ++ "(" ++ natToDec c ++ ")" ++ ext

/-- The `while True` loop of `get_unique_filename`, with fuel.  The fuel is
never exhausted when it is at least `existing.length + 1` (pigeonhole,
proved below), so the embedding agrees with the unbounded Python loop. -/
def uniqueGo (existing : List String) (base ext : String) : Nat → Nat → String
  | 0, c => mkSuffixed base ext c
  | fuel + 1, c =>
    let f := mkSuffixed base ext c
    if f ∈ existing then uniqueGo existing base ext fuel (c + 1) else f

/-- `get_unique_filename` (email_processor.py 48-67). -/
def get_unique_filename (ledger : List LedgerEntry) (originalFilename : String) : String :=
  let existing := ledger.map (·.file_name)
  if originalFilename ∈ existing then
    let parts := splitext originalFilename
    uniqueGo existing parts.1 parts.2 (existing.length + 1) 1
  else originalFilename

/-- The `while self._storage_adapter.folder_exists(...)` loop of
`_create_timestamped_folder` (email_processor.py 181-189), with fuel.
Fuel 101 is exact: the loop breaks once the counter passes 100. -/
def folderGo (ex : String → Bool) (base : String) : Nat → Nat → String → String
  | 0, _, folder => folder
  | fuel + 1, counter, folder =>
    if ex folder then
      let c := counter + 1
      let f := base ++ "(" ++ natToDec c ++ ")"
      if 100 < c then f else folderGo ex base fuel c f
    else folder

/-- `EmailProcessor._create_timestamped_folder` (email_processor.py 176-192),
parameterized by the store's `folder_exists` oracle and the current date. -/
def create_timestamped_folder (ex : String → Bool) (date companyName : String) : String :=
  let base := date ++ "_" ++ companyName
  folderGo ex base 101 0 base

/-- One record of the list returned by `PDFAnalyzerGenAI.analyze_pdf`; only
the "owner" field is consulted. -/
structure GeminiRecord where
  owner : Option String

/-- One attempt of the LLM extractor: either an exception (caught by the
retry loop) or the returned value, where `none` models a falsy response. -/
abbrev AttemptOutcome := Except Unit (Option (List GeminiRecord))

/-- `MAX_COMPANY_EXTRACTION_RETRIES` (email_processor.py line 18). -/
def MAX_COMPANY_EXTRACTION_RETRIES : Nat := 2

/-- The acceptance test of `_extract_company_name_with_retry` (lines 156-157):
`company_name and company_name.strip() and company_name.upper() not in
["UNKNOWN_COMPANY", "UNKNOWN", ""]`. -/
def acceptOwner (o : Option String) : Option String :=
  match o with
  | none => none
  | some s =>
    if s ≠ "" ∧ pyStrip s ≠ "" ∧
        pyUpper s ∉ (["UNKNOWN_COMPANY", "UNKNOWN", ""] : List String) then
      some (pyStrip s)
    else none

/-- One attempt of the retry loop (lines 148-167). -/
def attemptResult (a : AttemptOutcome) : Option String :=
  match a with
  | .error _ => none
  | .ok none => none
  | .ok (some []) => none
  | .ok (some (r :: _)) => acceptOwner r.owner

/-- The `for attempt in range(...)` loop of
`_extract_company_name_with_retry`. -/
def companyRetryGo (attempts : Nat → AttemptOutcome) : Nat → Nat → Option String
  | 0, _ => none
  | fuel + 1, attempt =>
    match attemptResult (attempts attempt) with
    | some name => some name
    | none => companyRetryGo attempts fuel (attempt + 1)

/-- `EmailProcessor._extract_company_name_with_retry` (email_processor.py
143-174), with the LLM call as an attempt-indexed oracle.  Returns `none`
(Python `None`) when both attempts fail: an explicit absence signal. -/
def extract_company_name_with_retry (attempts : Nat → AttemptOutcome) : Option String :=
  companyRetryGo attempts MAX_COMPANY_EXTRACTION_RETRIES 1

/-- System files excluded by `ZipHandler.extract_zip` (zip_handler.py 72). -/
def SYSTEM_FILES : List String := [".DS_Store", "Thumbs.db", "desktop.ini"]

/-- The per-entry filter of `ZipHandler.extract_zip` (zip_handler.py 53-74):
keep an archive entry unless it is a directory, lies in a __MACOSX tree,
has a dot-underscore basename, or is a well-known system file. -/
def keepZipEntry (n : String) : Bool :=
  !(pyEndsWith n "/") && !(strContains n "__MACOSX") &&
  !(pyStartsWith (basename n) "._") && !(SYSTEM_FILES.contains (basename n))

/-- `ZipHandler.extract_zip` (zip_handler.py 26-89).  `namelist = none`
models a bad or unreadable archive (BadZipFile or any other exception): the
handler logs and returns the empty list. -/
def extract_zip (namelist : Option (List String)) (extractTo : String) : List String :=
  match namelist with
  | none => []
  | some files => (files.filter keepZipEntry).map (fun n => extractTo ++ "/" ++ n)

/-- `supported_extensions` of `ZipHandler.get_supported_files`. -/
def SUPPORTED_EXTENSIONS : List String := [".pdf", ".doc", ".docx", ".csv", ".xls", ".xlsx"]

/-- `ZipHandler.get_supported_files` (zip_handler.py 91-119). -/
def get_supported_files (filePaths : List String) : List String :=
  filePaths.filter (fun p =>
    !(pyStartsWith (basename p) "._") &&
    SUPPORTED_EXTENSIONS.contains (pyLower (splitext p).2))

/-- The nested "bank_statement" object of a Heron file record; `status` is
`none` when the key is absent. -/
structure BankStInfo where
  status : Option String
deriving DecidableEq

/-- One record of the list returned by `check_file_status`;
`bank_statement = none` models a missing or falsy value. -/
structure HeronFileRec where
  bank_statement : Option BankStInfo
deriving DecidableEq

/-- `SUCCESS_STATES` of `wait_for_parsing` (heron_service.py 160). -/
def SUCCESS_STATES : List String := ["transactions_loaded", "parsed", "completed"]

/-- `PENDING_STATES` of `wait_for_parsing` (heron_service.py 161). -/
def PENDING_STATES : List String := ["new", "processing", "parsing", "human_reviewing"]

/-- `FAILED_STATES` of `wait_for_parsing` (heron_service.py 162). -/
def FAILED_STATES : List String := ["failed", "error", "rejected"]

/-- Classification of one polled attempt. -/
inductive ScanRes
  | success
  | failed
  | pending
  | nofind
deriving DecidableEq

/-- The `for f in file_data` scan of one poll attempt (heron_service.py
178-202): first success-bucket status returns positively, first
failure-bucket status negatively, pending statuses clear `all_done`. -/
def scanFiles : List HeronFileRec → Bool → ScanRes
  | [], sawPending => if sawPending then .pending else .nofind
  | f :: rest, sawPending =>
    match f.bank_statement with
    | none => scanFiles rest sawPending
    | some b =>
      let status := b.status.getD "unknown"
      if status ∈ SUCCESS_STATES then .success
      else if status ∈ PENDING_STATES then scanFiles rest true
      else if status ∈ FAILED_STATES then .failed
      else scanFiles rest sawPending

/-- Classify a whole attempt; `none` models a missing, malformed or
exception-producing response, which the loop retries like a pending one. -/
def pollClass (r : Option (List HeronFileRec)) : ScanRes :=
  match r with
  | none => .nofind
  | some fs => scanFiles fs false

/-- The `for attempt in range(max_retries)` loop of `wait_for_parsing`,
returning (result, number of status queries, sleep durations). -/
def waitGo (resp : Nat → Option (List HeronFileRec)) (delay : Nat) :
    Nat → Nat → Bool × Nat × List Nat
  | 0, _ => (false, 0, [])
  | fuel + 1, i =>
    match pollClass (resp i) with
    | .success => (true, 1, [])
    | .failed => (false, 1, [])
    | _ =>
      let r := waitGo resp delay fuel (i + 1)
      (r.1, r.2.1 + 1, delay :: r.2.2)

/-- `HeronService.wait_for_parsing` (heron_service.py 154-210); signature
defaults are `max_retries = 30`, `delay = 10`. -/
def wait_for_parsing (resp : Nat → Option (List HeronFileRec)) (maxRetries delay : Nat) :
    Bool × Nat × List Nat :=
  waitGo resp delay maxRetries 0

/-- The signature default `max_retries=30` of `wait_for_parsing`. -/
def WAIT_DEFAULT_MAX_RETRIES : Nat := 30

/-- The signature default `delay=10` (seconds) of `wait_for_parsing`. -/
def WAIT_DEFAULT_DELAY : Nat := 10

/-- Oracle inputs of `upload_and_parse_with_retry`: outcomes of the first
and (potential) second upload, the status streams seen by the two polls,
and the status snapshot consulted after a failed poll. -/
structure HeronEnv where
  upload1 : Option String
  upload2 : Option String
  responses1 : Nat → Option (List HeronFileRec)
  responses2 : Nat → Option (List HeronFileRec)
  statusAfterFail : Option (List HeronFileRec)

/-- The stuck-at-intake test (heron_service.py 230): a truthy file list in
which every record's bank_statement status equals "new". -/
def stuckAtNew (fd : Option (List HeronFileRec)) : Bool :=
  match fd with
  | none => false
  | some l =>
    !l.isEmpty && l.all (fun f =>
      match f.bank_statement with
      | none => false
      | some b => b.status = some "new")

/-- `HeronService.upload_and_parse_with_retry` (heron_service.py 212-241).
Result: ((success, file_id), (upload attempts, parse triggers)). -/
def upload_and_parse_with_retry (env : HeronEnv) (maxRetries delay : Nat) :
    (Bool × Option String) × (Nat × Nat) :=
  match env.upload1 with
  | none => ((false, none), (1, 0))
  | some fid =>
    let w1 := wait_for_parsing env.responses1 maxRetries delay
    if w1.1 then ((true, some fid), (1, 1))
    else if stuckAtNew env.statusAfterFail then
      match env.upload2 with
      | none => ((false, none), (2, 1))
      | some fid2 =>
        let w2 := wait_for_parsing env.responses2 maxRetries delay
        ((w2.1, some fid2), (2, 2))
    else ((false, some fid), (1, 1))

/-- Result of `SharePointAdapter.upload_file`, as consumed by the
orchestrator. -/
structure UploadResult where
  drive_id : String
  item_id : String
  webUrl : Option String
deriving DecidableEq

/-- External world of one `EmailProcessor` run: storage, detector verdicts,
LLM extraction, Heron, clock.  `metadataExc` injects an unanticipated
exception at the metadata-update step (the one statement of the per-file
body that has no inner handler), exercising the outer `except` clause. -/
structure ProcEnv where
  hashOf : String → String
  detectFile : String → String → Bool
  companyExtract : String → Option String
  folderExists : String → Bool
  upload : String → String → Option UploadResult
  heronEnsure : String → Except String String
  heronParse : String → String → Except String (Bool × Option String)
  metadataExc : String → Option String
  date : String
  now : String

/-- The mutable state of `EmailProcessor` plus the ledger file. -/
structure ProcState where
  ledger : List LedgerEntry
  extractedCompanyName : Option String
  timestampedFolder : Option String
  emailPdfUploaded : Bool
deriving DecidableEq

/-- Externally observable calls made while processing. -/
inductive Event
  | storeUpload (folder name : String)
  | heronEnsureUser (company : String)
  | heronParseCall (userId : String)
  | metadataUpdate (itemId : String)
deriving DecidableEq

/-- `bankable_extensions` (email_processor.py 348). -/
def bankableExtensions : List String := [".pdf", ".doc", ".docx", ".csv"]

/-- Python truthiness of an optional string. -/
def optTruthy (o : Option String) : Bool :=
  match o with
  | none => false
  | some s => s ≠ ""

/-- The company-resolution step of `_process_single_file` (lines 364-375):
reuse the cached name when truthy, otherwise call the retry extractor;
`none` means the file is aborted with CompanyExtractionFailed. -/
def companyStage (env : ProcEnv) (filePath : String) (st : ProcState) :
    Option (String × ProcState) :=
  if optTruthy st.extractedCompanyName then
    some (st.extractedCompanyName.getD "", st)
  else
    match env.companyExtract filePath with
    | none => none
    | some c =>
      if c = "" then none
      else some (c, { st with extractedCompanyName := some c })

/-- Destination-folder derivation with per-email caching (lines 377-382). -/
def folderStage (env : ProcEnv) (company : String) (st1 : ProcState) :
    String × ProcState :=
  if optTruthy st1.timestampedFolder then
    (st1.timestampedFolder.getD "", st1)
  else
    let f := create_timestamped_folder env.folderExists env.date company
    (f, { st1 with timestampedFolder := some f })

/-- The Heron block of `_process_single_file` (lines 394-407): both remote
calls sit in one try, and any exception downgrades to HeronError. -/
def heronStage (env : ProcEnv) (company filePath : String) : String × List Event :=
  match env.heronEnsure company with
  | .error _ => ("HeronError", [Event.heronEnsureUser company])
  | .ok uid =>
    match env.heronParse uid filePath with
    | .error _ => ("HeronError", [Event.heronEnsureUser company, Event.heronParseCall uid])
    | .ok (succ, _) =>
      (if succ then "Parsed" else "HeronError",
       [Event.heronEnsureUser company, Event.heronParseCall uid])

/-- `_upload_email_pdf` guarded by the once-per-email flag (lines 194-223,
424-426); it catches internally and never touches the ledger. -/
def emailPdfStage (env : ProcEnv) (folder : String) (st2 : ProcState)
    (evs : List Event) : ProcState × List Event :=
  if st2.emailPdfUploaded then (st2, evs)
  else
    let sumFolder := folder ++ "/summary_mail"
    let pdfName := env.now ++ "-email_summary.pdf"
    match env.upload sumFolder pdfName with
    | some _ =>
      ({ st2 with emailPdfUploaded := true }, evs ++ [Event.storeUpload sumFolder pdfName])
    | none => (st2, evs ++ [Event.storeUpload sumFolder pdfName])

/-- CASE 1 of `_process_single_file` (lines 360-428): bank statement. -/
def bankCase (env : ProcEnv) (msgId filePath uniqueName fileHash : String)
    (st : ProcState) : ProcState × List Event :=
  match companyStage env filePath st with
  | none =>
    ({ st with ledger :=
        log_attachment st.ledger env.now msgId uniqueName fileHash "CompanyExtractionFailed" none },
     [])
  | some (company, st1) =>
    let fs := folderStage env company st1
    let folder := fs.1
    let st2 := fs.2
    let companyFolder := folder ++ "/Dataroom"
    let ev0 := [Event.storeUpload companyFolder uniqueName]
    match env.upload companyFolder uniqueName with
    | none =>
      ({ st2 with ledger :=
          log_attachment st2.ledger env.now msgId uniqueName fileHash "UploadFailed" none },
       ev0)
    | some up =>
      let heron := heronStage env company filePath
      let parseStatus := heron.1
      let evs := ev0 ++ heron.2 ++ [Event.metadataUpdate up.item_id]
      match env.metadataExc uniqueName with
      | some msg =>
        ({ st2 with ledger :=
            log_attachment st2.ledger env.now msgId uniqueName fileHash "Error" (some msg) },
         evs)
      | none =>
        let ps := emailPdfStage env folder st2 evs
        ({ ps.1 with ledger :=
            log_attachment ps.1.ledger env.now msgId uniqueName fileHash parseStatus none },
         ps.2)

/-- CASE 2 of `_process_single_file` (lines 430-465): non-bank file.  Note
that when the upload fails, NO ledger entry is appended on either route. -/
def nonBankCase (env : ProcEnv) (msgId uniqueName fileHash : String)
    (st : ProcState) : ProcState × List Event :=
  if optTruthy st.timestampedFolder && optTruthy st.extractedCompanyName then
    let companyFolder := st.timestampedFolder.getD "" ++ "/Dataroom"
    let ev0 := [Event.storeUpload companyFolder uniqueName]
    match env.upload companyFolder uniqueName with
    | some up =>
      match env.metadataExc uniqueName with
      | some msg =>
        ({ st with ledger :=
            log_attachment st.ledger env.now msgId uniqueName fileHash "Error" (some msg) },
         ev0 ++ [Event.metadataUpdate up.item_id])
      | none =>
        ({ st with ledger :=
            log_attachment st.ledger env.now msgId uniqueName fileHash "NonBankFile_Dataroom" none },
         ev0 ++ [Event.metadataUpdate up.item_id])
    | none => (st, ev0)
  else
    let nonBankFolder := env.date ++ "_non_bank"
    let ev0 := [Event.storeUpload nonBankFolder uniqueName]
    match env.upload nonBankFolder uniqueName with
    | some _ =>
      ({ st with ledger :=
          log_attachment st.ledger env.now msgId uniqueName fileHash "NonBank_Folder" none },
       ev0)
    | none => (st, ev0)

/-- `EmailProcessor._process_single_file` (email_processor.py 316-475).
Returns the updated state and the list of external calls performed.  Local
file copying and cleanup (pure disk bookkeeping) are not modelled; the
source file is assumed present and non-empty. -/
def process_single_file (env : ProcEnv) (msgId : String) (filePath : String)
    (st : ProcState) : ProcState × List Event :=
  let originalName := basename filePath
  let uniqueName := get_unique_filename st.ledger originalName
  let fileHash := env.hashOf filePath
  let ext := pyLower (splitext uniqueName).2
  let isBank :=
    if bankableExtensions.contains ext then env.detectFile filePath uniqueName else false
  if isBank then bankCase env msgId filePath uniqueName fileHash st
  else nonBankCase env msgId uniqueName fileHash st

/-- The per-bucket attachment loops of `process_email` (lines 632-653):
each attachment is processed in turn, each inside its own try/except, so
one file's outcome never aborts its siblings. -/
def process_files (env : ProcEnv) (msgId : String) :
    List String → ProcState → ProcState × List Event
  | [], st => (st, [])
  | p :: rest, st =>
    let r1 := process_single_file env msgId p st
    let r2 := process_files env msgId rest r1.1
    (r2.1, r1.2 ++ r2.2)

/-- The pre-scan verdict for a (non-archive) attachment (lines 560-584). -/
def prescanIsBank (env : ProcEnv) (p : String) : Bool :=
  let n := basename p
  let ext := pyLower (splitext n).2
  bankableExtensions.contains ext && env.detectFile p n

/-- `EmailProcessor.process_email` (email_processor.py 477-671) for
non-archive attachments: reset the per-email caches, pre-scan into the
statement and non-statement buckets, then process statements first. -/
def process_email (env : ProcEnv) (msgId : String) (attachments : List String)
    (st : ProcState) : ProcState × List Event :=
  if attachments.isEmpty then (st, [])
  else
    let st0 := { st with extractedCompanyName := none, timestampedFolder := none,
                         emailPdfUploaded := false }
    let banks := attachments.filter (prescanIsBank env)
    let nonBanks := attachments.filter (fun p => !(prescanIsBank env p))
    process_files env msgId (banks ++ nonBanks) st0

/-! ## Detector lemmas -/

theorem detect_fst (m : String → String → Option ReMatch) (tc : Option String)
    (fn : String) (th : Nat) :
    (detect m tc fn th).1 = ((check_content_keywords tc th).1 || check_filename fn) := by
  unfold detect
  cases h1 : (check_content_keywords tc th).1 <;> cases h2 : check_filename fn <;>
    simp [h1, h2]

theorem ccw_fst_iff (tc : Option String) (th : Nat) :
    (check_content_keywords tc th).1 = true ↔
      ∃ t, tc = some t ∧ t ≠ "" ∧ th ≤ countKeywords t := by
  cases tc with
  | none => simp [check_content_keywords]
  | some t =>
    by_cases h : t = "" <;> simp [check_content_keywords, h]

theorem check_filename_iff (fn : String) :
    check_filename fn = true ↔
      ((pyEndsWith (pyLower fn) ".pdf" || pyEndsWith (pyLower fn) ".doc" ||
        pyEndsWith (pyLower fn) ".docx" || pyEndsWith (pyLower fn) ".csv") = true ∧
       ((∃ k ∈ (["statement", "bank", "account_summary"] : List String),
           strContains (pyLower fn) k = true) ∨
        (∃ k ∈ (["bank", "statement", "account"] : List String),
           strContains (pyLower fn) k = true))) := by
  unfold check_filename
  cases hA : (pyEndsWith (pyLower fn) ".pdf" || pyEndsWith (pyLower fn) ".doc" ||
      pyEndsWith (pyLower fn) ".docx" || pyEndsWith (pyLower fn) ".csv") <;>
    cases hB : (["statement", "bank", "account_summary"] : List String).any
        (fun k => strContains (pyLower fn) k) <;>
      cases hC : (["bank", "statement", "account"] : List String).any
          (fun k => strContains (pyLower fn) k) <;>
        simp_all [List.any_eq_true]

/-- C5: `detect` classifies a file as a bank statement iff the keyword-count
content match meets the threshold, or (fallback) the filename ends in a
supported extension and contains a strong keyword or one of the tokens of
the bank/statement/account regex; otherwise it returns false. -/
theorem detect_classification_iff (m : String → String → Option ReMatch)
    (textContent : Option String) (fileName : String) (threshold : Nat) :
    (detect m textContent fileName threshold).1 = true ↔
      ((∃ t, textContent = some t ∧ t ≠ "" ∧ threshold ≤ countKeywords t) ∨
       ((pyEndsWith (pyLower fileName) ".pdf" || pyEndsWith (pyLower fileName) ".doc" ||
         pyEndsWith (pyLower fileName) ".docx" || pyEndsWith (pyLower fileName) ".csv") = true ∧
        ((∃ k ∈ (["statement", "bank", "account_summary"] : List String),
            strContains (pyLower fileName) k = true) ∨
         (∃ k ∈ (["bank", "statement", "account"] : List String),
            strContains (pyLower fileName) k = true)))) := by
  rw [detect_fst, Bool.or_eq_true, ccw_fst_iff, check_filename_iff]

/-- C10: the lowercased keyword vocabulary contains "monthly statement",
"account summary" and "checking account" twice each, and "checking" (a
substring of "checking account") besides; hence any extracted text that
contains the single phrase "checking account" scores at least 3 keywords
and is classified as a bank statement at the default threshold, regardless
of the filename. -/
theorem checking_account_triggers (m : String → String → Option ReMatch)
    (text fileName : String)
    (h : strContains text "checking account" = true) :
    3 ≤ countKeywords text ∧
    (detect m (some text) fileName MIN_KEYWORD_THRESHOLD).1 = true ∧
    requiredKeywords.count "monthly statement" = 2 ∧
    requiredKeywords.count "account summary" = 2 ∧
    requiredKeywords.count "checking account" = 2 ∧
    "checking" ∈ requiredKeywords := by
  have hca : "checking account".data <:+: text.data := of_decide_eq_true h
  have hck : strContains text "checking" = true := by
    have h1 : "checking".data <:+: "checking account".data := by decide
    exact decide_eq_true (h1.trans hca)
  have hsub : List.Sublist ["checking account", "checking", "checking account"]
      requiredKeywords := by decide
  have h3 : 3 ≤ countKeywords text := by
    have hle := hsub.countP_le (fun kw => strContains text kw)
    simp only [List.countP_cons, List.countP_nil, h, hck, if_true] at hle
    exact le_trans (by omega) hle
  have htne : text ≠ "" := by
    intro he
    subst he
    exact absurd hca (by decide)
  refine ⟨h3, ?_, by decide, by decide, by decide, by decide⟩
  rw [detect_fst]
  have : (check_content_keywords (some text) MIN_KEYWORD_THRESHOLD).1 = true := by
    simp [check_content_keywords, htne, MIN_KEYWORD_THRESHOLD, h3]
  simp [this]

/-- Witness for C10 at a concrete text and filename. -/
theorem checking_account_triggers_witness :
    strContains "your checking account summary" "checking account" = true ∧
    3 ≤ countKeywords "your checking account summary" ∧
    (detect (fun _ _ => none) (some "your checking account summary") "x.bin"
        MIN_KEYWORD_THRESHOLD).1 = true := by
  have h := checking_account_triggers (fun _ _ => none) "your checking account summary"
    "x.bin" (by decide)
  exact ⟨by decide, h.1, h.2.1⟩

/-! ## Archive expansion (C6) -/

/-- C6: archive expansion keeps only non-directory entries outside __MACOSX
trees, without dot-underscore basenames and not among the well-known system
files; the supported-files filter retains only the supported extensions; the
crafted archive of the spec yields exactly "file.pdf"; and a malformed
archive yields the empty list rather than raising. -/
theorem zip_expansion_filters :
    (∀ (names : List String) (dest p : String), p ∈ extract_zip (some names) dest →
       ∃ n, n ∈ names ∧ p = dest ++ "/" ++ n ∧
         pyEndsWith n "/" = false ∧ strContains n "__MACOSX" = false ∧
         pyStartsWith (basename n) "._" = false ∧ basename n ∉ SYSTEM_FILES) ∧
    (∀ (paths : List String) (p : String), p ∈ get_supported_files paths →
       p ∈ paths ∧ pyLower (splitext p).2 ∈ SUPPORTED_EXTENSIONS) ∧
    (∀ dest, extract_zip none dest = []) ∧
    get_supported_files (extract_zip (some ["file.pdf", "__MACOSX/._file.pdf", ".DS_Store"]) "dest")
      = ["dest/file.pdf"] := by
  refine ⟨?_, ?_, fun dest => rfl, by decide⟩
  · intro names dest p hp
    simp only [extract_zip, List.mem_map, List.mem_filter] at hp
    obtain ⟨n, ⟨hn, hkeep⟩, rfl⟩ := hp
    unfold keepZipEntry at hkeep
    simp only [Bool.and_eq_true, Bool.not_eq_true'] at hkeep
    refine ⟨n, hn, rfl, hkeep.1.1.1, hkeep.1.1.2, hkeep.1.2, ?_⟩
    intro hmem
    have h1 := List.elem_eq_true_of_mem hmem
    have h2 : List.elem (basename n) SYSTEM_FILES = false := hkeep.2
    rw [h2] at h1
    cases h1
  · intro paths p hp
    simp only [get_supported_files, List.mem_filter, Bool.and_eq_true] at hp
    refine ⟨hp.1, ?_⟩
    exact List.mem_of_elem_eq_true hp.2.2

/-- Witness for C6 on the crafted archive. -/
theorem zip_expansion_filters_witness :
    ∃ n, n ∈ ["file.pdf"] ∧ "dest/file.pdf" = "dest" ++ "/" ++ n ∧
      pyEndsWith n "/" = false ∧ strContains n "__MACOSX" = false ∧
      pyStartsWith (basename n) "._" = false ∧ basename n ∉ SYSTEM_FILES :=
  zip_expansion_filters.1 ["file.pdf"] "dest" "dest/file.pdf" (by decide)

/-! ## Submitter-name extraction guards (C7) -/

theorem extractNameGo_cases (m : String → String → Option ReMatch) (st : String) :
    ∀ ps, extractNameGo m st ps = "UNKNOWN_BANK_DEFAULT" ∨
      candidateOk (extractNameGo m st ps) = true := by
  intro ps
  induction ps with
  | nil => exact Or.inl rfl
  | cons p rest ih =>
    unfold extractNameGo
    cases hm : m p st with
    | none => exact ih
    | some r =>
      by_cases hok : candidateOk (cleanCandidate (selectCandidate p r)) = true
      · right; simp [hok]
      · simpa [hok] using ih

theorem extractNameGo_none (m : String → String → Option ReMatch) (st : String) :
    ∀ ps, (∀ p, p ∈ ps → ∀ r, m p st = some r →
        candidateOk (cleanCandidate (selectCandidate p r)) = false) →
      extractNameGo m st ps = "UNKNOWN_BANK_DEFAULT" := by
  intro ps
  induction ps with
  | nil => intro _; rfl
  | cons p rest ih =>
    intro h
    unfold extractNameGo
    cases hm : m p st with
    | none => exact ih (fun q hq r hr => h q (List.mem_cons_of_mem p hq) r hr)
    | some r =>
      have hflat := h p (List.mem_cons_self p rest) r hm
      simp only [hflat, Bool.false_eq_true, if_false]
      exact ih (fun q hq r2 hr => h q (List.mem_cons_of_mem p hq) r2 hr)

/-- C7: the name extractor tries the ordered pattern list against the first
1000 characters; every returned value other than the sentinel passes the
guards (length above 3, no "STATEMENT", no "BOX" in its upper-casing); and
when no pattern produces an acceptable candidate the fixed sentinel
"UNKNOWN_BANK_DEFAULT" is returned. -/
theorem extract_company_name_guards (m : String → String → Option ReMatch) (text : String) :
    (extract_company_name m text = "UNKNOWN_BANK_DEFAULT" ∨
     (3 < pyLen (extract_company_name m text) ∧
      strContains (pyUpper (extract_company_name m text)) "STATEMENT" = false ∧
      strContains (pyUpper (extract_company_name m text)) "BOX" = false)) ∧
    ((∀ p, p ∈ companyPatterns → ∀ r, m p (pyTake text 1000) = some r →
        candidateOk (cleanCandidate (selectCandidate p r)) = false) →
      extract_company_name m text = "UNKNOWN_BANK_DEFAULT") := by
  constructor
  · unfold extract_company_name
    by_cases ht : text = ""
    · simp [ht]
    · simp only [ht, if_false]
      rcases extractNameGo_cases m (pyTake text 1000) companyPatterns with h | h
      · exact Or.inl h
      · right
        unfold candidateOk at h
        simp only [Bool.and_eq_true, decide_eq_true_eq, Bool.not_eq_true'] at h
        exact ⟨h.1.1, h.1.2, h.2⟩
  · intro hnone
    unfold extract_company_name
    by_cases ht : text = ""
    · simp [ht]
    · simp only [ht, if_false]
      exact extractNameGo_none m _ _ hnone

/-- Witness for C7: an oracle that matches nothing yields the sentinel. -/
theorem extract_company_name_guards_witness :
    extract_company_name (fun _ _ => none) "hello world" = "UNKNOWN_BANK_DEFAULT" :=
  (extract_company_name_guards (fun _ _ => none) "hello world").2
    (fun _ _ _ hr => by cases hr)

/-! ## Company resolver (C4) -/

theorem attemptResult_some_ex (a : AttemptOutcome) (s : String)
    (h : attemptResult a = some s) :
    ∃ rs r, a = Except.ok (some (r :: rs)) ∧ ∃ o, r.owner = some o ∧
      o ≠ "" ∧ pyStrip o ≠ "" ∧
      pyUpper o ∉ (["UNKNOWN_COMPANY", "UNKNOWN", ""] : List String) ∧
      s = pyStrip o := by
  cases a with
  | error e => simp [attemptResult] at h
  | ok v =>
    cases v with
    | none => simp [attemptResult] at h
    | some l =>
      cases l with
      | nil => simp [attemptResult] at h
      | cons r rs =>
        simp only [attemptResult, acceptOwner] at h
        cases ho : r.owner with
        | none => rw [ho] at h; cases h
        | some o =>
          rw [ho] at h
          have h2 : (if o ≠ "" ∧ pyStrip o ≠ "" ∧
              pyUpper o ∉ (["UNKNOWN_COMPANY", "UNKNOWN", ""] : List String) then
                some (pyStrip o) else none) = some s := h
          by_cases hc : o ≠ "" ∧ pyStrip o ≠ "" ∧
              pyUpper o ∉ (["UNKNOWN_COMPANY", "UNKNOWN", ""] : List String)
          · rw [if_pos hc] at h2
            exact ⟨rs, r, rfl, o, ho, hc.1, hc.2.1, hc.2.2, (Option.some.inj h2).symm⟩
          · rw [if_neg hc] at h2; cases h2

theorem retry_eq (attempts : Nat → AttemptOutcome) :
    extract_company_name_with_retry attempts =
      match attemptResult (attempts 1) with
      | some n => some n
      | none => attemptResult (attempts 2) := by
  unfold extract_company_name_with_retry MAX_COMPANY_EXTRACTION_RETRIES
  cases h1 : attemptResult (attempts 1) <;> cases h2 : attemptResult (attempts 2) <;>
    simp [companyRetryGo, h1, h2]

/-- C4: a company-extractor response is accepted only when the owner field
is present, truthy, non-blank after stripping, and its upper-casing is not
one of the sentinels UNKNOWN_COMPANY / UNKNOWN / ""; after both attempts
fail the resolver returns `none` (never a default string); and the
orchestrator then appends exactly a CompanyExtractionFailed ledger entry
for that file, performs no upload and no remote-parse call, and the
remaining files are processed unchanged. -/
theorem company_resolver_policy (attempts : Nat → AttemptOutcome) :
    (∀ s, extract_company_name_with_retry attempts = some s →
       ∃ a, (a = 1 ∨ a = 2) ∧ ∃ rs r, attempts a = Except.ok (some (r :: rs)) ∧
         ∃ o, r.owner = some o ∧ o ≠ "" ∧ pyStrip o ≠ "" ∧
           pyUpper o ∉ (["UNKNOWN_COMPANY", "UNKNOWN", ""] : List String) ∧
           s = pyStrip o) ∧
    (attemptResult (attempts 1) = none → attemptResult (attempts 2) = none →
       extract_company_name_with_retry attempts = none) ∧
    (∀ (env : ProcEnv) (msgId path : String) (st : ProcState),
       bankableExtensions.contains
           (pyLower (splitext (get_unique_filename st.ledger (basename path))).2) = true →
       env.detectFile path (get_unique_filename st.ledger (basename path)) = true →
       st.extractedCompanyName = none →
       env.companyExtract path = none →
       (process_single_file env msgId path st =
          ({ st with ledger := (log_attachment st.ledger env.now msgId
               (get_unique_filename st.ledger (basename path)) (env.hashOf path)
               "CompanyExtractionFailed" none) }, []) ∧
        ∀ rest, process_files env msgId (path :: rest) st =
          process_files env msgId rest
            { st with ledger := (log_attachment st.ledger env.now msgId
                (get_unique_filename st.ledger (basename path)) (env.hashOf path)
                "CompanyExtractionFailed" none) })) := by
  refine ⟨?_, ?_, ?_⟩
  · intro s hs
    rw [retry_eq] at hs
    cases h1 : attemptResult (attempts 1) with
    | some n =>
      rw [h1] at hs
      exact ⟨1, Or.inl rfl, attemptResult_some_ex _ s (h1.trans hs)⟩
    | none =>
      rw [h1] at hs
      exact ⟨2, Or.inr rfl, attemptResult_some_ex _ s hs⟩
  · intro h1 h2
    rw [retry_eq, h1, h2]
  · intro env msgId path st hext hdet hcache hfail
    have heq : process_single_file env msgId path st =
        ({ st with ledger := (log_attachment st.ledger env.now msgId
             (get_unique_filename st.ledger (basename path)) (env.hashOf path)
             "CompanyExtractionFailed" none) }, []) := by
      have hext2 : pyLower (splitext (get_unique_filename st.ledger (basename path))).2
          ∈ bankableExtensions := List.mem_of_elem_eq_true hext
      unfold process_single_file bankCase companyStage
      simp [hext, hext2, hdet, hcache, hfail, optTruthy]
    refine ⟨heq, fun rest => ?_⟩
    show (let r1 := process_single_file env msgId path st
          let r2 := process_files env msgId rest r1.1
          (r2.1, r1.2 ++ r2.2)) = _
    rw [heq]
    rfl

/-- Witness for C4: both attempts answering owner "UNKNOWN" yield the
absence signal, and the orchestrator records CompanyExtractionFailed. -/
theorem company_resolver_policy_witness :
    extract_company_name_with_retry (fun _ => Except.ok (some [⟨some "UNKNOWN"⟩])) = none ∧
    process_single_file
        ⟨fun _ => "h1", fun _ _ => true, fun _ => none, fun _ => false,
         fun _ _ => none, fun _ => Except.error "", fun _ _ => Except.error "",
         fun _ => none, "2024.01.15", "T0"⟩ "m0" "doc.pdf" ⟨[], none, none, false⟩
      = (⟨[⟨"T0", "m0", "doc.pdf", "h1", "CompanyExtractionFailed", none⟩], none, none, false⟩,
         []) := by
  constructor
  · exact (company_resolver_policy (fun _ => Except.ok (some [⟨some "UNKNOWN"⟩]))).2.1
      (by decide) (by decide)
  · have h := (company_resolver_policy (fun _ => Except.ok (some [⟨some "UNKNOWN"⟩]))).2.2
      ⟨fun _ => "h1", fun _ _ => true, fun _ => none, fun _ => false,
       fun _ _ => none, fun _ => Except.error "", fun _ _ => Except.error "",
       fun _ => none, "2024.01.15", "T0"⟩ "m0" "doc.pdf" ⟨[], none, none, false⟩
      (by decide) rfl rfl rfl
    exact h.1.trans (by decide)

/-! ## Unique filename resolution (C8) -/

theorem mkSuffixed_inj (base ext : String) {c1 c2 : Nat}
    (h : mkSuffixed base ext c1 = mkSuffixed base ext c2) : c1 = c2 := by
  unfold mkSuffixed at h
  have hd := congrArg String.data h
  simp only [String.data_append, List.append_assoc] at hd
  have h1 := List.append_cancel_left hd
  have h2 := List.append_cancel_left h1
  have h3 := List.append_cancel_right h2
  exact natToDec_inj (String.ext h3)

theorem exists_free_suffix (existing : List String) (base ext : String) :
    ∃ c, 1 ≤ c ∧ c ≤ existing.length + 1 ∧ mkSuffixed base ext c ∉ existing := by
  by_contra hcon
  push_neg at hcon
  have hnd : ((List.range (existing.length + 1)).map
      (fun i => mkSuffixed base ext (i + 1))).Nodup := by
    refine List.Nodup.map ?_ (List.nodup_range _)
    intro a b hab
    have := mkSuffixed_inj base ext hab
    omega
  have hsub : ((List.range (existing.length + 1)).map
      (fun i => mkSuffixed base ext (i + 1))) ⊆ existing := by
    intro x hx
    simp only [List.mem_map, List.mem_range] at hx
    obtain ⟨i, hi, rfl⟩ := hx
    exact hcon (i + 1) (by omega) (by omega)
  have hcard : ((List.range (existing.length + 1)).map
      (fun i => mkSuffixed base ext (i + 1))).length ≤ existing.length := by
    calc ((List.range (existing.length + 1)).map
          (fun i => mkSuffixed base ext (i + 1))).length
        = ((List.range (existing.length + 1)).map
            (fun i => mkSuffixed base ext (i + 1))).toFinset.card :=
          (List.toFinset_card_of_nodup hnd).symm
      _ ≤ existing.toFinset.card := Finset.card_le_card (fun a ha => by
          rw [List.mem_toFinset] at ha ⊢
          exact hsub ha)
      _ ≤ existing.length := existing.toFinset_card_le
  simp at hcard

theorem uniqueGo_spec (existing : List String) (base ext : String) :
    ∀ fuel start,
      (∃ k, start ≤ k ∧ k < start + fuel ∧ mkSuffixed base ext k ∉ existing) →
      ∃ c, start ≤ c ∧ uniqueGo existing base ext fuel start = mkSuffixed base ext c ∧
        mkSuffixed base ext c ∉ existing ∧
        ∀ j, start ≤ j → j < c → mkSuffixed base ext j ∈ existing := by
  intro fuel
  induction fuel with
  | zero =>
    rintro start ⟨k, hk1, hk2, -⟩
    omega
  | succ fuel ih =>
    rintro start ⟨k, hk1, hk2, hk3⟩
    by_cases hmem : mkSuffixed base ext start ∈ existing
    · have hks : k ≠ start := fun he => hk3 (he ▸ hmem)
      obtain ⟨c, hc1, hc2, hc3, hc4⟩ := ih (start + 1) ⟨k, by omega, by omega, hk3⟩
      refine ⟨c, by omega, ?_, hc3, ?_⟩
      · simp only [uniqueGo]
        rw [if_pos hmem]
        exact hc2
      · intro j hj1 hj2
        by_cases hjs : j = start
        · exact hjs ▸ hmem
        · exact hc4 j (by omega) hj2
    · refine ⟨start, le_refl _, ?_, hmem, by omega⟩
      simp only [uniqueGo]
      rw [if_neg hmem]

/-- C8: unique-filename resolution returns the candidate unchanged when no
prior ledger entry has that file_name; otherwise it appends (1), (2), ...
before the extension and returns the first variant not present among the
prior names; in particular "statement.pdf" maps to itself, "statement(1).pdf"
and "statement(2).pdf" against the three ledgers of the spec scenario. -/
theorem unique_filename_resolution (ledger : List LedgerEntry) (original : String) :
    (original ∉ ledger.map (·.file_name) →
       get_unique_filename ledger original = original) ∧
    (original ∈ ledger.map (·.file_name) →
       ∃ c, 1 ≤ c ∧
         get_unique_filename ledger original =
           mkSuffixed (splitext original).1 (splitext original).2 c ∧
         mkSuffixed (splitext original).1 (splitext original).2 c ∉
           ledger.map (·.file_name) ∧
         ∀ j, 1 ≤ j → j < c →
           mkSuffixed (splitext original).1 (splitext original).2 j ∈
             ledger.map (·.file_name)) ∧
    get_unique_filename [] "statement.pdf" = "statement.pdf" ∧
    get_unique_filename [⟨"t", "m", "statement.pdf", "h", "Parsed", none⟩] "statement.pdf"
      = "statement(1).pdf" ∧
    get_unique_filename [⟨"t", "m", "statement.pdf", "h", "Parsed", none⟩,
        ⟨"t2", "m2", "statement(1).pdf", "h2", "Parsed", none⟩] "statement.pdf"
      = "statement(2).pdf" := by
  refine ⟨?_, ?_, by decide, by decide, by decide⟩
  · intro h
    unfold get_unique_filename
    rw [if_neg h]
  · intro h
    unfold get_unique_filename
    rw [if_pos h]
    obtain ⟨k, hk1, hk2, hk3⟩ := exists_free_suffix (ledger.map (·.file_name))
      (splitext original).1 (splitext original).2
    exact uniqueGo_spec _ _ _ ((ledger.map (·.file_name)).length + 1) 1
      ⟨k, hk1, by omega, hk3⟩

/-- Witness for C8 on a one-entry ledger. -/
theorem unique_filename_resolution_witness :
    ∃ c, 1 ≤ c ∧
      get_unique_filename [⟨"t", "m", "statement.pdf", "h", "Parsed", none⟩] "statement.pdf"
        = mkSuffixed (splitext "statement.pdf").1 (splitext "statement.pdf").2 c ∧
      mkSuffixed (splitext "statement.pdf").1 (splitext "statement.pdf").2 c ∉
        ([⟨"t", "m", "statement.pdf", "h", "Parsed", none⟩] : List LedgerEntry).map
          (·.file_name) ∧
      ∀ j, 1 ≤ j → j < c →
        mkSuffixed (splitext "statement.pdf").1 (splitext "statement.pdf").2 j ∈
          ([⟨"t", "m", "statement.pdf", "h", "Parsed", none⟩] : List LedgerEntry).map
            (·.file_name) :=
  (unique_filename_resolution [⟨"t", "m", "statement.pdf", "h", "Parsed", none⟩]
    "statement.pdf").2.1 (by decide)

/-! ## Destination-folder derivation (C3) -/

theorem folderGo_not_exists (ex : String → Bool) (base : String) (fuel counter : Nat)
    (folder : String) (h : ex folder = false) :
    folderGo ex base fuel counter folder = folder := by
  cases fuel with
  | zero => rfl
  | succ fuel => simp [folderGo, h]

theorem folderGo_free (ex : String → Bool) (base : String) :
    ∀ fuel counter folder,
      counter + fuel = 101 →
      ex folder = true →
      (∃ k, counter < k ∧ k ≤ 100 ∧ ex (base ++ "(" ++ natToDec k ++ ")") = false) →
      ∃ c, counter < c ∧ c ≤ 100 ∧
        folderGo ex base fuel counter folder = base ++ "(" ++ natToDec c ++ ")" ∧
        ex (base ++ "(" ++ natToDec c ++ ")") = false ∧
        ∀ j, counter < j → j < c → ex (base ++ "(" ++ natToDec j ++ ")") = true := by
  intro fuel
  induction fuel with
  | zero =>
    rintro counter folder hsum hex ⟨k, hk1, hk2, -⟩
    omega
  | succ fuel ih =>
    rintro counter folder hsum hex ⟨k, hk1, hk2, hk3⟩
    have hnot100 : ¬ 100 < counter + 1 := by omega
    cases hnew : ex (base ++ "(" ++ natToDec (counter + 1) ++ ")") with
    | true =>
      have hkne : k ≠ counter + 1 := by
        intro he
        rw [he, hnew] at hk3
        cases hk3
      obtain ⟨c, hc1, hc2, hc3, hc4, hc5⟩ :=
        ih (counter + 1) (base ++ "(" ++ natToDec (counter + 1) ++ ")") (by omega) hnew
          ⟨k, by omega, hk2, hk3⟩
      refine ⟨c, by omega, hc2, ?_, hc4, ?_⟩
      · simp only [folderGo]
        rw [hex]
        simp only [if_true, hnot100, if_false]
        exact hc3
      · intro j hj1 hj2
        by_cases hjc : j = counter + 1
        · exact hjc ▸ hnew
        · exact hc5 j (by omega) hj2
    | false =>
      refine ⟨counter + 1, by omega, by omega, ?_, hnew, by omega⟩
      simp only [folderGo]
      rw [hex]
      simp only [if_true, hnot100, if_false]
      exact folderGo_not_exists ex base fuel (counter + 1) _ hnew

/-- C3 (amended): destination-folder derivation returns date_company when no
folder of that name exists; on collision it returns the first non-existing
date_company(k) with k between 1 and 100; the concrete collision scenario of
the spec resolves to "2024.01.15_Acme Corp(1)"; and the loop always
terminates — but when every suffixed candidate up to (100) also exists, it
breaks and returns date_company(101) without any existence check, rather
than a timestamp-suffixed fallback. -/
theorem folder_collision_handling (ex : String → Bool) (date company : String) :
    (ex (date ++ "_" ++ company) = false →
       create_timestamped_folder ex date company = date ++ "_" ++ company) ∧
    (ex (date ++ "_" ++ company) = true →
     (∃ k, 1 ≤ k ∧ k ≤ 100 ∧ ex (date ++ "_" ++ company ++ "(" ++ natToDec k ++ ")") = false) →
       ∃ c, 1 ≤ c ∧ c ≤ 100 ∧
         create_timestamped_folder ex date company
           = date ++ "_" ++ company ++ "(" ++ natToDec c ++ ")" ∧
         ex (date ++ "_" ++ company ++ "(" ++ natToDec c ++ ")") = false ∧
         ∀ j, 1 ≤ j → j < c →
           ex (date ++ "_" ++ company ++ "(" ++ natToDec j ++ ")") = true) ∧
    create_timestamped_folder (fun f => f == "2024.01.15_Acme Corp") "2024.01.15" "Acme Corp"
      = "2024.01.15_Acme Corp(1)" := by
  refine ⟨?_, ?_, by decide⟩
  · intro h
    unfold create_timestamped_folder
    exact folderGo_not_exists ex (date ++ "_" ++ company) 101 0 (date ++ "_" ++ company) h
  · rintro hex ⟨k, hk1, hk2, hk3⟩
    unfold create_timestamped_folder
    obtain ⟨c, hc1, hc2, hc3, hc4, hc5⟩ :=
      folderGo_free ex (date ++ "_" ++ company) 101 0 (date ++ "_" ++ company) (by omega) hex
        ⟨k, by omega, hk2, hk3⟩
    exact ⟨c, by omega, hc2, hc3, hc4, fun j hj1 hj2 => hc5 j (by omega) hj2⟩

/-- Witness for C3 at a store in which only the base name exists. -/
theorem folder_collision_handling_witness :
    ∃ c, 1 ≤ c ∧ c ≤ 100 ∧
      create_timestamped_folder (fun f => f == "2024.01.15_Acme Corp") "2024.01.15" "Acme Corp"
        = "2024.01.15" ++ "_" ++ "Acme Corp" ++ "(" ++ natToDec c ++ ")" ∧
      (fun f => f == "2024.01.15_Acme Corp")
          ("2024.01.15" ++ "_" ++ "Acme Corp" ++ "(" ++ natToDec c ++ ")") = false ∧
      ∀ j, 1 ≤ j → j < c →
        (fun f => f == "2024.01.15_Acme Corp")
            ("2024.01.15" ++ "_" ++ "Acme Corp" ++ "(" ++ natToDec j ++ ")") = true :=
  (folder_collision_handling (fun f => f == "2024.01.15_Acme Corp") "2024.01.15"
    "Acme Corp").2.1 (by decide) ⟨1, by omega, by omega, by decide⟩

/-- Counterexample for C3 as stated: when every candidate folder exists, the
loop does not fall back to a timestamp-suffixed name; it returns the
101st suffixed variant (which the store still reports as existing). -/
theorem folder_cap_counterexample :
    create_timestamped_folder (fun _ => true) "2024.01.15" "Acme Corp"
        = "2024.01.15_Acme Corp" ++ "(" ++ natToDec 101 ++ ")" ∧
    (fun (_ : String) => true)
        (create_timestamped_folder (fun _ => true) "2024.01.15" "Acme Corp") = true := by
  exact ⟨by decide, rfl⟩

/-! ## Remote-parse polling (C9) -/

theorem waitGo_success (resp : Nat → Option (List HeronFileRec)) (delay : Nat) :
    ∀ fuel s i, i < fuel → pollClass (resp (s + i)) = .success →
      (∀ j, j < i → pollClass (resp (s + j)) ≠ .success ∧ pollClass (resp (s + j)) ≠ .failed) →
      (waitGo resp delay fuel s).1 = true := by
  intro fuel
  induction fuel with
  | zero => intro s i hi _ _; omega
  | succ fuel ih =>
    intro s i hi hsucc hpre
    cases i with
    | zero =>
      simp only [waitGo]
      rw [show s = s + 0 from rfl, hsucc]
    | succ i =>
      have h0 := hpre 0 (by omega)
      simp only [waitGo]
      cases hp : pollClass (resp (s + 0)) with
      | success => exact absurd hp h0.1
      | failed => exact absurd hp h0.2
      | pending =>
        rw [show s = s + 0 from rfl, hp]
        exact ih (s + 1) i (by omega)
          (by rw [show s + 1 + i = s + (i + 1) by omega]; exact hsucc)
          (fun j hj => by rw [show s + 1 + j = s + (j + 1) by omega]; exact hpre (j + 1) (by omega))
      | nofind =>
        rw [show s = s + 0 from rfl, hp]
        exact ih (s + 1) i (by omega)
          (by rw [show s + 1 + i = s + (i + 1) by omega]; exact hsucc)
          (fun j hj => by rw [show s + 1 + j = s + (j + 1) by omega]; exact hpre (j + 1) (by omega))

theorem waitGo_failed (resp : Nat → Option (List HeronFileRec)) (delay : Nat) :
    ∀ fuel s i, i < fuel → pollClass (resp (s + i)) = .failed →
      (∀ j, j < i → pollClass (resp (s + j)) ≠ .success ∧ pollClass (resp (s + j)) ≠ .failed) →
      (waitGo resp delay fuel s).1 = false := by
  intro fuel
  induction fuel with
  | zero => intro s i hi _ _; omega
  | succ fuel ih =>
    intro s i hi hfail hpre
    cases i with
    | zero =>
      simp only [waitGo]
      rw [show s = s + 0 from rfl, hfail]
    | succ i =>
      have h0 := hpre 0 (by omega)
      simp only [waitGo]
      cases hp : pollClass (resp (s + 0)) with
      | success => exact absurd hp h0.1
      | failed => exact absurd hp h0.2
      | pending =>
        rw [show s = s + 0 from rfl, hp]
        exact ih (s + 1) i (by omega)
          (by rw [show s + 1 + i = s + (i + 1) by omega]; exact hfail)
          (fun j hj => by rw [show s + 1 + j = s + (j + 1) by omega]; exact hpre (j + 1) (by omega))
      | nofind =>
        rw [show s = s + 0 from rfl, hp]
        exact ih (s + 1) i (by omega)
          (by rw [show s + 1 + i = s + (i + 1) by omega]; exact hfail)
          (fun j hj => by rw [show s + 1 + j = s + (j + 1) by omega]; exact hpre (j + 1) (by omega))

theorem waitGo_timeout (resp : Nat → Option (List HeronFileRec)) (delay : Nat) :
    ∀ fuel s,
      (∀ i, i < fuel → pollClass (resp (s + i)) ≠ .success ∧ pollClass (resp (s + i)) ≠ .failed) →
      (waitGo resp delay fuel s).1 = false := by
  intro fuel
  induction fuel with
  | zero => intro s _; rfl
  | succ fuel ih =>
    intro s hall
    have h0 := hall 0 (by omega)
    simp only [waitGo]
    cases hp : pollClass (resp (s + 0)) with
    | success => exact absurd hp h0.1
    | failed => exact absurd hp h0.2
    | pending =>
      rw [show s = s + 0 from rfl, hp]
      exact ih (s + 1)
        (fun i hi => by rw [show s + 1 + i = s + (i + 1) by omega]; exact hall (i + 1) (by omega))
    | nofind =>
      rw [show s = s + 0 from rfl, hp]
      exact ih (s + 1)
        (fun i hi => by rw [show s + 1 + i = s + (i + 1) by omega]; exact hall (i + 1) (by omega))

theorem waitGo_queries (resp : Nat → Option (List HeronFileRec)) (delay : Nat) :
    ∀ fuel s, (waitGo resp delay fuel s).2.1 ≤ fuel := by
  intro fuel
  induction fuel with
  | zero => intro s; exact le_refl 0
  | succ fuel ih =>
    intro s
    simp only [waitGo]
    cases hp : pollClass (resp s) <;> simp only []
    · exact by omega
    · exact by omega
    · have := ih (s + 1); omega
    · have := ih (s + 1); omega

theorem waitGo_sleeps (resp : Nat → Option (List HeronFileRec)) (delay : Nat) :
    ∀ fuel s x, x ∈ (waitGo resp delay fuel s).2.2 → x = delay := by
  intro fuel
  induction fuel with
  | zero => intro s x hx; cases hx
  | succ fuel ih =>
    intro s x hx
    simp only [waitGo] at hx
    cases hp : pollClass (resp s) <;> rw [hp] at hx
    · cases hx
    · cases hx
    · rcases List.mem_cons.mp hx with h | h
      · exact h
      · exact ih (s + 1) x h
    · rcases List.mem_cons.mp hx with h | h
      · exact h
      · exact ih (s + 1) x h

/-- C9: the poll queries status at most `max_retries` times (signature
default 30) sleeping the fixed `delay` (default 10s) between attempts; the
first success-bucket attempt ends the poll with true, the first
failure-bucket attempt with false, and exhausting all attempts while still
pending yields false; after a failed poll, exactly one re-upload-and-reparse
cycle is run when every tracked file is still in the earliest pending state
"new", and never more than one (at most two upload attempts in total). -/
theorem polling_policy (resp : Nat → Option (List HeronFileRec)) (n d : Nat)
    (env : HeronEnv) :
    (WAIT_DEFAULT_MAX_RETRIES = 30 ∧ WAIT_DEFAULT_DELAY = 10) ∧
    ((wait_for_parsing resp n d).2.1 ≤ n) ∧
    (∀ x ∈ (wait_for_parsing resp n d).2.2, x = d) ∧
    (∀ i, i < n → pollClass (resp i) = .success →
       (∀ j, j < i → pollClass (resp j) ≠ .success ∧ pollClass (resp j) ≠ .failed) →
       (wait_for_parsing resp n d).1 = true) ∧
    (∀ i, i < n → pollClass (resp i) = .failed →
       (∀ j, j < i → pollClass (resp j) ≠ .success ∧ pollClass (resp j) ≠ .failed) →
       (wait_for_parsing resp n d).1 = false) ∧
    ((∀ i, i < n → pollClass (resp i) ≠ .success ∧ pollClass (resp i) ≠ .failed) →
       (wait_for_parsing resp n d).1 = false) ∧
    ((upload_and_parse_with_retry env n d).2.1 ≤ 2) ∧
    (∀ fid, env.upload1 = some fid → (wait_for_parsing env.responses1 n d).1 = false →
       stuckAtNew env.statusAfterFail = true →
       (upload_and_parse_with_retry env n d).2.1 = 2) ∧
    (∀ fid, env.upload1 = some fid → stuckAtNew env.statusAfterFail = false →
       (upload_and_parse_with_retry env n d).2.1 = 1) := by
  refine ⟨⟨rfl, rfl⟩, waitGo_queries resp d n 0, waitGo_sleeps resp d n 0, ?_, ?_, ?_, ?_, ?_, ?_⟩
  · intro i hi hs hpre
    exact waitGo_success resp d n 0 i hi (by simpa using hs)
      (fun j hj => by simpa using hpre j hj)
  · intro i hi hf hpre
    exact waitGo_failed resp d n 0 i hi (by simpa using hf)
      (fun j hj => by simpa using hpre j hj)
  · intro hall
    exact waitGo_timeout resp d n 0 (fun i hi => by simpa using hall i hi)
  · unfold upload_and_parse_with_retry
    cases h1 : env.upload1 with
    | none => simp
    | some fid =>
      cases hw : (wait_for_parsing env.responses1 n d).1 with
      | true => simp [hw]
      | false =>
        cases hs : stuckAtNew env.statusAfterFail with
        | false => simp [hw, hs]
        | true =>
          cases h2 : env.upload2 with
          | none => simp [hw, hs, h2]
          | some fid2 => simp [hw, hs, h2]
  · intro fid h1 hw hs
    unfold upload_and_parse_with_retry
    rw [h1]
    simp only [hw, hs, Bool.false_eq_true, if_false, if_true]
    cases h2 : env.upload2 <;> simp
  · intro fid h1 hs
    unfold upload_and_parse_with_retry
    rw [h1]
    cases hw : (wait_for_parsing env.responses1 n d).1 with
    | true => simp [hw]
    | false => simp [hw, hs]

/-- Witness for C9: a three-attempt run that is pending twice and then
succeeds returns true, and a non-stuck failure performs a single upload. -/
theorem polling_policy_witness :
    (wait_for_parsing
        (fun i => if i = 2 then some [⟨some ⟨some "parsed"⟩⟩] else some [⟨some ⟨some "new"⟩⟩])
        30 10).1 = true ∧
    (upload_and_parse_with_retry
        ⟨some "fid", none, fun _ => some [⟨some ⟨some "failed"⟩⟩], fun _ => none, none⟩
        30 10).2.1 = 1 := by
  constructor
  · exact (polling_policy
        (fun i => if i = 2 then some [⟨some ⟨some "parsed"⟩⟩] else some [⟨some ⟨some "new"⟩⟩])
        30 10 ⟨none, none, fun _ => none, fun _ => none, none⟩).2.2.2.1 2 (by omega)
      (by decide) (fun j hj => by interval_cases j <;> exact ⟨by decide, by decide⟩)
  · exact (polling_policy (fun _ => none) 30 10
        ⟨some "fid", none, fun _ => some [⟨some ⟨some "failed"⟩⟩], fun _ => none, none⟩).2.2.2.2.2.2.2.2
      "fid" rfl (by decide)

/-! ## Orchestrator ledger discipline -/

/-- Every outcome string the per-file handler can record. -/
def REACHABLE_OUTCOMES : List String :=
  ["CompanyExtractionFailed", "UploadFailed", "Error", "Parsed", "HeronError",
   "NonBankFile_Dataroom", "NonBank_Folder"]

theorem companyStage_state (env : ProcEnv) (filePath : String) (st : ProcState)
    (company : String) (st1 : ProcState)
    (h : companyStage env filePath st = some (company, st1)) :
    st1.ledger = st.ledger ∧ st1.timestampedFolder = st.timestampedFolder ∧
      st1.emailPdfUploaded = st.emailPdfUploaded := by
  simp only [companyStage] at h
  split at h
  · rw [Option.some.injEq, Prod.mk.injEq] at h
    obtain ⟨-, rfl⟩ := h
    exact ⟨rfl, rfl, rfl⟩
  · split at h
    · exact Option.noConfusion h
    · split at h
      · exact Option.noConfusion h
      · rw [Option.some.injEq, Prod.mk.injEq] at h
        obtain ⟨-, rfl⟩ := h
        exact ⟨rfl, rfl, rfl⟩

theorem folderStage_ledger (env : ProcEnv) (company : String) (st1 : ProcState) :
    (folderStage env company st1).2.ledger = st1.ledger := by
  simp only [folderStage]
  split <;> rfl

theorem heronStage_status (env : ProcEnv) (company filePath : String) :
    (heronStage env company filePath).1 = "Parsed" ∨
      (heronStage env company filePath).1 = "HeronError" := by
  simp only [heronStage]
  split
  · exact Or.inr rfl
  · split
    · exact Or.inr rfl
    · split
      · exact Or.inl rfl
      · exact Or.inr rfl

theorem emailPdfStage_ledger (env : ProcEnv) (folder : String) (st2 : ProcState)
    (evs : List Event) : (emailPdfStage env folder st2 evs).1.ledger = st2.ledger := by
  simp only [emailPdfStage]
  split
  · rfl
  · split <;> rfl

theorem bankCase_ledger (env : ProcEnv) (msgId filePath uniqueName fileHash : String)
    (st : ProcState) :
    ∃ e, (bankCase env msgId filePath uniqueName fileHash st).1.ledger = st.ledger ++ [e] ∧
      e.outcome ∈ REACHABLE_OUTCOMES := by
  simp only [bankCase, log_attachment]
  split
  · exact ⟨_, rfl, by simp [REACHABLE_OUTCOMES]⟩
  · rename_i company st1 heq
    have hl : st1.ledger = st.ledger := (companyStage_state env filePath st company st1 heq).1
    split
    · refine ⟨⟨env.now, msgId, uniqueName, fileHash, "UploadFailed", none⟩, ?_, ?_⟩
      · rw [folderStage_ledger, hl]
      · simp [REACHABLE_OUTCOMES]
    · split
      · rename_i up msg heqm
        refine ⟨⟨env.now, msgId, uniqueName, fileHash, "Error", some msg⟩, ?_, ?_⟩
        · rw [folderStage_ledger, hl]
        · simp [REACHABLE_OUTCOMES]
      · rcases heronStage_status env company filePath with hh | hh <;>
        · refine ⟨⟨env.now, msgId, uniqueName, fileHash,
              (heronStage env company filePath).1, none⟩, ?_, ?_⟩
          · rw [emailPdfStage_ledger, folderStage_ledger, hl]
          · simp [REACHABLE_OUTCOMES, hh]

theorem nonBankCase_ledger (env : ProcEnv) (msgId uniqueName fileHash : String)
    (st : ProcState) :
    ∃ es, (nonBankCase env msgId uniqueName fileHash st).1.ledger = st.ledger ++ es ∧
      es.length ≤ 1 ∧ ∀ e ∈ es, e.outcome ∈ REACHABLE_OUTCOMES := by
  simp only [nonBankCase, log_attachment]
  split
  · split
    · split
      · exact ⟨_, rfl, by simp, by simp [REACHABLE_OUTCOMES]⟩
      · exact ⟨_, rfl, by simp, by simp [REACHABLE_OUTCOMES]⟩
    · exact ⟨[], (List.append_nil _).symm, by simp, by simp⟩
  · split
    · exact ⟨_, rfl, by simp, by simp [REACHABLE_OUTCOMES]⟩
    · exact ⟨[], (List.append_nil _).symm, by simp, by simp⟩

theorem process_single_file_ledger (env : ProcEnv) (msgId path : String) (st : ProcState) :
    ∃ es, (process_single_file env msgId path st).1.ledger = st.ledger ++ es ∧
      es.length ≤ 1 ∧ ∀ e ∈ es, e.outcome ∈ REACHABLE_OUTCOMES := by
  simp only [process_single_file]
  split
  · split
    · obtain ⟨e, he, ho⟩ := bankCase_ledger env msgId path
        (get_unique_filename st.ledger (basename path)) (env.hashOf path) st
      exact ⟨[e], he, by simp, by simpa using ho⟩
    · exact nonBankCase_ledger env msgId (get_unique_filename st.ledger (basename path))
        (env.hashOf path) st
  · rw [if_neg (by simp : ¬ (false = true))]
    exact nonBankCase_ledger env msgId (get_unique_filename st.ledger (basename path))
      (env.hashOf path) st

/-- Is an event a storage upload attempt? -/
def isStoreUpload : Event → Bool
  | .storeUpload _ _ => true
  | _ => false

/-- Is an event a remote-parse call? -/
def isHeronParseCall : Event → Bool
  | .heronParseCall _ => true
  | _ => false

/-- C1 (amended): `is_duplicate` correctly reports whether some prior ledger
entry carries the given hash, but no processing path ever consults it: the
per-file handler can only record outcomes from the reachable vocabulary, in
which "Duplicate" does not occur, so a byte-identical attachment is not
short-circuited. -/
theorem duplicate_check_unused (ledger : List LedgerEntry) (h : String)
    (env : ProcEnv) (msgId path : String) (st : ProcState) :
    (is_duplicate ledger h = true ↔ ∃ e ∈ ledger, e.hash = h) ∧
    (∀ e ∈ (process_single_file env msgId path st).1.ledger,
       e ∈ st.ledger ∨ e.outcome ≠ "Duplicate") := by
  constructor
  · simp [is_duplicate, List.any_eq_true]
  · intro e he
    obtain ⟨es, heq, -, ho⟩ := process_single_file_ledger env msgId path st
    rw [heq] at he
    rcases List.mem_append.mp he with h1 | h1
    · exact Or.inl h1
    · right
      intro hD
      have hmem := ho e h1
      rw [hD] at hmem
      simp [REACHABLE_OUTCOMES] at hmem

/-- Witness for C1 (amended) on a one-entry ledger. -/
theorem duplicate_check_unused_witness :
    is_duplicate [⟨"t", "m", "a.pdf", "beef", "Parsed", none⟩] "beef" = true :=
  (duplicate_check_unused [⟨"t", "m", "a.pdf", "beef", "Parsed", none⟩] "beef"
      ⟨fun _ => "beef", fun _ _ => false, fun _ => none, fun _ => false, fun _ _ => none,
       fun _ => Except.error "", fun _ _ => Except.error "", fun _ => none, "d", "t"⟩
      "m" "a.pdf" ⟨[], none, none, false⟩).1.mpr
    ⟨⟨"t", "m", "a.pdf", "beef", "Parsed", none⟩, by simp, rfl⟩

/-- Counterexample for C1 as stated: an email whose only attachment's hash
is already in the ledger is fully re-processed — the run performs a storage
upload and a remote-parse call, and no entry with outcome "Duplicate" is
ever recorded. -/
theorem duplicate_not_short_circuited :
    (let ledger0 : List LedgerEntry := [⟨"T-1", "m0", "statement.pdf", "deadbeef", "Parsed", none⟩]
     let env1 : ProcEnv := ⟨fun _ => "deadbeef", fun _ _ => true, fun _ => some "Acme Corp",
       fun _ => false, fun _ _ => some ⟨"drv", "itm", some "url"⟩,
       fun c => Except.ok ("ene_" ++ c), fun _ _ => Except.ok (true, some "hpdf"),
       fun _ => none, "2024.01.15", "T0"⟩
     let r := process_email env1 "m1" ["statement.pdf"] ⟨ledger0, none, none, false⟩
     is_duplicate ledger0 (env1.hashOf "statement.pdf") = true ∧
     0 < (r.2.filter isStoreUpload).length ∧
     0 < (r.2.filter isHeronParseCall).length ∧
     ∀ e ∈ r.1.ledger, e.outcome ≠ "Duplicate") := by
  decide

/-- C2 (amended): the per-file handler appends at most one ledger entry,
always with an outcome from the reachable vocabulary; on the bank-statement
branch it appends exactly one; an unanticipated exception at the unguarded
metadata step is caught and recorded as exactly one entry with outcome
"Error"; but on the non-statement branch with a failed upload it appends no
entry at all; and processing of a list of files always decomposes file by
file, so no file's outcome aborts its siblings. -/
theorem ledger_entry_discipline (env : ProcEnv) (msgId path : String) (st : ProcState) :
    (∃ es, (process_single_file env msgId path st).1.ledger = st.ledger ++ es ∧
       es.length ≤ 1 ∧ ∀ e ∈ es, e.outcome ∈ REACHABLE_OUTCOMES) ∧
    (bankableExtensions.contains
         (pyLower (splitext (get_unique_filename st.ledger (basename path))).2) = true →
     env.detectFile path (get_unique_filename st.ledger (basename path)) = true →
     ∃ e, (process_single_file env msgId path st).1.ledger = st.ledger ++ [e] ∧
       e.outcome ∈ REACHABLE_OUTCOMES) ∧
    (∀ c f u msg,
       bankableExtensions.contains
           (pyLower (splitext (get_unique_filename st.ledger (basename path))).2) = true →
       env.detectFile path (get_unique_filename st.ledger (basename path)) = true →
       st.extractedCompanyName = some c → c ≠ "" →
       st.timestampedFolder = some f → f ≠ "" →
       env.upload (f ++ "/Dataroom") (get_unique_filename st.ledger (basename path)) = some u →
       env.metadataExc (get_unique_filename st.ledger (basename path)) = some msg →
       (process_single_file env msgId path st).1.ledger =
         st.ledger ++ [⟨env.now, msgId, get_unique_filename st.ledger (basename path),
           env.hashOf path, "Error", some msg⟩]) ∧
    (env.detectFile path (get_unique_filename st.ledger (basename path)) = false →
     st.timestampedFolder = none →
     env.upload (env.date ++ "_non_bank") (get_unique_filename st.ledger (basename path)) = none →
     process_single_file env msgId path st =
       (st, [Event.storeUpload (env.date ++ "_non_bank")
               (get_unique_filename st.ledger (basename path))])) ∧
    (∀ (l1 l2 : List String) (st0 : ProcState),
       process_files env msgId (l1 ++ l2) st0 =
         ((process_files env msgId l2 (process_files env msgId l1 st0).1).1,
          (process_files env msgId l1 st0).2 ++
            (process_files env msgId l2 (process_files env msgId l1 st0).1).2)) := by
  refine ⟨process_single_file_ledger env msgId path st, ?_, ?_, ?_, ?_⟩
  · intro hext hdet
    simp only [process_single_file, hext, hdet, eq_self_iff_true, if_true]
    exact bankCase_ledger env msgId path
      (get_unique_filename st.ledger (basename path)) (env.hashOf path) st
  · intro c f u msg hext hdet hcache hcne hfold hfne hup hmeta
    have hct : optTruthy st.extractedCompanyName = true := by
      rw [hcache]; simp [optTruthy, hcne]
    have hft : optTruthy st.timestampedFolder = true := by
      rw [hfold]; simp [optTruthy, hfne]
    have hoc : optTruthy (some c) = true := by simp [optTruthy, hcne]
    have hof : optTruthy (some f) = true := by simp [optTruthy, hfne]
    simp only [process_single_file, hext, hdet, eq_self_iff_true, if_true,
      bankCase, companyStage, folderStage, log_attachment, hct, hft, hoc, hof,
      hcache, hfold, Option.getD_some]
    simp only [hup, hmeta]
  · intro hdet hfold hup
    have hb : (if bankableExtensions.contains
        (pyLower (splitext (get_unique_filename st.ledger (basename path))).2) then
          env.detectFile path (get_unique_filename st.ledger (basename path))
        else false) = false := by
      split
      · exact hdet
      · rfl
    have hft : optTruthy st.timestampedFolder = false := by rw [hfold]; rfl
    simp only [process_single_file, hb, Bool.false_eq_true, if_false,
      nonBankCase, hft, Bool.false_and, hup]
  · intro l1 l2 st0
    induction l1 generalizing st0 with
    | nil => simp [process_files]
    | cons p l1 ih =>
      simp only [List.cons_append, process_files]
      simp only [List.append_eq]
      rw [ih]
      simp [List.append_assoc]

/-- Witness for C2 (amended): a successful statement run appends exactly
one entry. -/
theorem ledger_entry_discipline_witness :
    ∃ e, (process_single_file
        ⟨fun _ => "h3", fun _ _ => true, fun _ => some "Acme", fun _ => false,
         fun _ _ => some ⟨"drv", "itm", some "url"⟩, fun c => Except.ok ("ene_" ++ c),
         fun _ _ => Except.ok (true, some "hp"), fun _ => none, "2024.01.15", "T0"⟩
        "m0" "doc.pdf" ⟨[], none, none, false⟩).1.ledger = [] ++ [e] ∧
      e.outcome ∈ REACHABLE_OUTCOMES :=
  (ledger_entry_discipline
      ⟨fun _ => "h3", fun _ _ => true, fun _ => some "Acme", fun _ => false,
       fun _ _ => some ⟨"drv", "itm", some "url"⟩, fun c => Except.ok ("ene_" ++ c),
       fun _ _ => Except.ok (true, some "hp"), fun _ => none, "2024.01.15", "T0"⟩
      "m0" "doc.pdf" ⟨[], none, none, false⟩).2.1 (by decide) rfl

/-- Counterexample for C2 as stated: on the non-statement route with a
failed upload, the handler reaches its terminal branch (the upload was
attempted, as the event shows) yet appends no ledger entry at all. -/
theorem missing_ledger_entry_counterexample :
    process_single_file
        ⟨fun _ => "h2", fun _ _ => false, fun _ => none, fun _ => false, fun _ _ => none,
         fun _ => Except.error "", fun _ _ => Except.error "", fun _ => none, "2024.01.15", "T0"⟩
        "m0" "notes.pdf" ⟨[], none, none, false⟩
      = (⟨[], none, none, false⟩, [Event.storeUpload "2024.01.15_non_bank" "notes.pdf"]) := by
  decide

end DualWave
